import Mathlib

/-!
Formal model of the muda dispatch core: the launch scheduler
(`parallel_for::apply`), the graph node descriptor builder
(`parallel_for::asNodeParms`), the device scalar and view
(`DeviceVar` / `VarView`), and the nested-graph launch trampoline
(`GraphViewer`).

Machine `int` arithmetic is modelled by `Int`; C++ `/` and `%` on `int`
truncate toward zero, which is `Int.tdiv` / `Int.tmod`.  Device-side
per-thread execution is modelled by the list of indices each thread
passes to the callable (its trace); a whole kernel launch is the
concatenation of the traces of its `gridDim * blockDim` threads, thread
`tid` standing for the unit with `blockIdx.x * blockDim.x + threadIdx.x
= tid`.  The grid-stride loop is modelled with a fuel parameter bounding
the number of iterations; theorems require fuel at least the loop's
actual iteration count, so the fuel never truncates a terminating run.
-/

set_option genSizeOfSpec false

set_option genInjectivity false

namespace muda

/-- Errors thrown by `parallel_for::checkInput` (std::logic_error). -/
inductive LaunchErrorSpec where
  | stepZero
  | stepDirection

/-- `parallel_for::checkInput`: throws when `step == 0`, or when
`step * (end - begin) < 0`. -/
def checkInput (begin_ end_ step : Int) : Option LaunchErrorSpec :=
  if step = 0 then some .stepZero
  else if step * (end_ - begin_) < 0 then some .stepDirection
  else none

/-- The two kernel entry points of `parallel_for`. -/
inductive KernelFunc where
  | parallelForKernel
  | gridStrideLoopKernel

/-- One kernel launch issued to the stream: entry point, launch
configuration, and the kernel arguments `(begin, end, step)`. -/
structure KernelLaunch where
  func : KernelFunc
  gridDim : Int
  blockDim : Int
  sharedMemSize : Nat
  begin_ : Int
  end_ : Int
  step : Int

/-- The configuration state of a `parallel_for` object: the
one-argument constructor leaves `gridDim = 0` (bounded strategy), the
two-argument constructor sets an explicit `gridDim` (grid-stride
strategy). -/
structure parallel_for where
  gridDim : Int
  blockDim : Int
  sharedMemSize : Nat

/-- `parallel_for::calculateGridDim`: C++ `int` division and modulus
truncate toward zero (`Int.tdiv` / `Int.tmod`). -/
def parallel_for.calculateGridDim (self : parallel_for) (begin_ end_ step : Int) : Int :=
  let stride := end_ - begin_
  let nMinthread := stride.tdiv step + (if stride.tmod step ≠ 0 then 1 else 0)
  let nMinblocks := nMinthread.tdiv self.blockDim +
    (if nMinthread.tmod self.blockDim > 0 then 1 else 0)
  nMinblocks

/-- `parallel_for::apply(begin, end, step, f)`: validation first, then
either the bounded branch (`gridDim <= 0`, launch skipped when
`begin == end`) or the grid-stride branch.  The result is the list of
kernel launches issued to the stream, in issue order. -/
def parallel_for.apply (self : parallel_for) (begin_ end_ step : Int) :
    Except LaunchErrorSpec (List KernelLaunch) :=
  match checkInput begin_ end_ step with
  | some err => .error err
  | none =>
    if self.gridDim ≤ 0 then
      if begin_ ≠ end_ then
        let nBlocks := self.calculateGridDim begin_ end_ step
        .ok [⟨.parallelForKernel, nBlocks, self.blockDim, self.sharedMemSize, begin_, end_, step⟩]
      else
        .ok []
    else
      .ok [⟨.gridStrideLoopKernel, self.gridDim, self.blockDim, self.sharedMemSize, begin_, end_, step⟩]

/-- Which field of the `kernelData` payload an entry of the
argument-pointer list addresses.  The source builds the list as
`{&p.callable, &p.begin, &p.end, &p.step}`, all into the one payload
instance owned by the descriptor. -/
inductive PayloadField where
  | callableAddr
  | beginAddr
  | endAddr
  | stepAddr

/-- A `kernelNodeParms` descriptor as built by `asNodeParms`: entry
point, launch configuration, the captured `kernelData` payload fields
(`begin`, `step`, `end`; the callable is opaque), and the ordered
argument-pointer list. -/
structure kernelNodeParms where
  func : KernelFunc
  gridDim : Int
  blockDim : Int
  sharedMemBytes : Nat
  kernelDataBegin : Int
  kernelDataStep : Int
  kernelDataEnd : Int
  argPtrs : List PayloadField

/-- `parallel_for::asNodeParms(begin, end, step, f)`: same validation
as `apply`, then a descriptor is built instead of launching — entry
point and `gridDim` by the same branch condition, `blockDim` and
`sharedMemBytes` recorded unchanged, and the argument-pointer list
`{&p.callable, &p.begin, &p.end, &p.step}`. -/
def parallel_for.asNodeParms (self : parallel_for) (begin_ end_ step : Int) :
    Except LaunchErrorSpec kernelNodeParms :=
  match checkInput begin_ end_ step with
  | some err => .error err
  | none =>
    let funcGrid : KernelFunc × Int :=
      if self.gridDim ≤ 0 then
        (.parallelForKernel, self.calculateGridDim begin_ end_ step)
      else
        (.gridStrideLoopKernel, self.gridDim)
    .ok { func := funcGrid.1
          gridDim := funcGrid.2
          blockDim := self.blockDim
          sharedMemBytes := self.sharedMemSize
          kernelDataBegin := begin_
          kernelDataStep := step
          kernelDataEnd := end_
          argPtrs := [.callableAddr, .beginAddr, .endAddr, .stepAddr] }

end muda

namespace muda.buffer

/-- Modelled from the spec: the memory domains behind `Memory::alloc`
and `BufferLaunch::copy` (declared in headers outside this tree) are a
flat address space; `alloc` hands out a fresh address, `next` counts
allocations, and a cell holds `none` until first written. -/
structure Heap (T : Type) where
  store : Nat → Option T
  next : Nat

/-- Modelled from the spec: writing one element at an address. -/
def Heap.write {T : Type} (h : Heap T) (p : Nat) (v : Option T) : Heap T :=
  ⟨fun q => if q = p then v else h.store q, h.next⟩

/-- Modelled from the spec: reading one element at an address. -/
def Heap.read {T : Type} (h : Heap T) (p : Nat) : Option T :=
  h.store p

/-- Modelled from the spec: `Memory::alloc` returns a fresh address and
commits one allocation; the new cell is uninitialized. -/
def Heap.alloc {T : Type} (h : Heap T) : Nat × Heap T :=
  (h.next, ⟨h.store, h.next + 1⟩)

/-- `VarView<T>`: a non-owning handle on one element's storage. -/
structure VarView (T : Type) where
  m_data : Nat

/-- `VarView::copy_from(const T*)`: blocking transfer of a host value
into the viewed storage (`BufferLaunch().copy(*this, val).wait()`). -/
def VarView.copy_from_host {T : Type} (v : VarView T) (val : T) (h : Heap T) : Heap T :=
  h.write v.m_data (some val)

/-- `VarView::copy_to(T*)`: blocking transfer of the viewed storage out
to a host value (`BufferLaunch().copy(val, *this).wait()`). -/
def VarView.copy_to_host {T : Type} (v : VarView T) (h : Heap T) : Option T :=
  h.read v.m_data

/-- `VarView::copy_from(const VarView&)`: blocking storage-to-storage
transfer (`BufferLaunch().copy(*this, val).wait()`). -/
def VarView.copy_from_view {T : Type} (dst src : VarView T) (h : Heap T) : Heap T :=
  h.write dst.m_data (h.read src.m_data)

/-- `DeviceVar<T>`: exclusive owner of one element's storage. -/
structure DeviceVar (T : Type) where
  m_data : Nat

/-- Modelled from the spec: `DeviceVar::view()` (declared in a header
outside this tree) wraps the owned storage address, non-owning. -/
def DeviceVar.view {T : Type} (d : DeviceVar T) : VarView T :=
  ⟨d.m_data⟩

/-- `DeviceVar::DeviceVar()`: allocate one element, uninitialized. -/
def DeviceVar.mkDefault {T : Type} (h : Heap T) : DeviceVar T × Heap T :=
  let ph := h.alloc
  (⟨ph.1⟩, ph.2)

/-- `DeviceVar::DeviceVar(const T&)`: allocate, then
`view().copy_from(&value)`. -/
def DeviceVar.mkFromValue {T : Type} (value : T) (h : Heap T) : DeviceVar T × Heap T :=
  let ph := h.alloc
  let d : DeviceVar T := ⟨ph.1⟩
  (d, d.view.copy_from_host value ph.2)

/-- `DeviceVar::DeviceVar(const DeviceVar&)`: allocate, then
`view().copy_from(other.view())`. -/
def DeviceVar.mkCopy {T : Type} (other : DeviceVar T) (h : Heap T) : DeviceVar T × Heap T :=
  let ph := h.alloc
  let d : DeviceVar T := ⟨ph.1⟩
  (d, VarView.copy_from_view d.view other.view ph.2)

/-- `DeviceVar::operator=(const DeviceVar&)`: `if (this == &other)
return *this;` then `view().copy_from(other.view())`.  Each live
`DeviceVar` owns its storage exclusively, so object identity coincides
with storage-address identity. -/
def DeviceVar.assign {T : Type} (d other : DeviceVar T) (h : Heap T) : DeviceVar T × Heap T :=
  if d.m_data = other.m_data then (d, h)
  else (d, VarView.copy_from_view d.view other.view h)

/-- `DeviceVar::operator=(VarView)`: `view().copy_from(other)`. -/
def DeviceVar.assignView {T : Type} (d : DeviceVar T) (other : VarView T) (h : Heap T) :
    DeviceVar T × Heap T :=
  (d, VarView.copy_from_view d.view other h)

/-- `DeviceVar::operator=(const T&)`: `view().copy_from(&val)`. -/
def DeviceVar.assignValue {T : Type} (d : DeviceVar T) (val : T) (h : Heap T) :
    DeviceVar T × Heap T :=
  (d, d.view.copy_from_host val h)

/-- `DeviceVar::operator T()`: `view().copy_to(&var)` then return. -/
def DeviceVar.toValue {T : Type} (d : DeviceVar T) (h : Heap T) : Option T :=
  d.view.copy_to_host h

end muda.buffer

namespace muda.graph

/-- The device-side stream argument of a nested-graph launch: the two
special launch contexts, or any ordinary stream. -/
inductive GraphStream where
  | graphTailLaunch
  | graphFireAndForget
  | ordinary (id : Nat)
deriving DecidableEq

/-- The two fatal conditions `GraphViewer::launch` can signal. -/
inductive KernelErrorSpec where
  | invalidLaunchStream (graph : Nat)
  | launchFailure (graph : Nat) (code : Nat)

/-- `GraphViewer`: a viewer over one executable graph handle. -/
structure GraphViewer where
  m_graph : Nat

/-- `GraphViewer::launch(stream)` compiled for device code.  Modelled
from the spec: `MUDA_KERNEL_ASSERT` (defined outside this tree) is a
fatal signal reporting the offending graph, so a stream other than the
two legal contexts stops the unit before `cudaGraphLaunch` runs.  The
launch primitive itself is the external parameter `cudaGraphLaunch`,
returning `none` on success or a nonzero error code. -/
def GraphViewer.launchDevice (g : GraphViewer) (stream : GraphStream)
    (cudaGraphLaunch : Nat → GraphStream → Option Nat) : Except KernelErrorSpec Unit :=
  if ¬(stream = .graphTailLaunch ∨ stream = .graphFireAndForget) then
    .error (.invalidLaunchStream g.m_graph)
  else
    match cudaGraphLaunch g.m_graph stream with
    | none => .ok ()
    | some code => .error (.launchFailure g.m_graph code)

/-- `GraphViewer::tail_launch()`: `launch(cudaStreamGraphTailLaunch)`. -/
def GraphViewer.tail_launch (g : GraphViewer)
    (cudaGraphLaunch : Nat → GraphStream → Option Nat) : Except KernelErrorSpec Unit :=
  g.launchDevice .graphTailLaunch cudaGraphLaunch

/-- `GraphViewer::fire_and_forget()`: `launch(cudaStreamGraphFireAndForget)`. -/
def GraphViewer.fire_and_forget (g : GraphViewer)
    (cudaGraphLaunch : Nat → GraphStream → Option Nat) : Except KernelErrorSpec Unit :=
  g.launchDevice .graphFireAndForget cudaGraphLaunch

end muda.graph

namespace muda

/-! ## Facts about the ceiling-division pattern of `calculateGridDim` -/

/-- With a nonnegative dividend the source's two indicator spellings,
`(a % b) != 0` and `(a % b) > 0`, agree. -/
theorem cppCeil_gt_indicator (a b : Int) (ha : 0 ≤ a) :
    (if a.tmod b > 0 then (1 : Int) else 0) = (if a.tmod b ≠ 0 then 1 else 0) := by
  have hr0 := Int.tmod_nonneg b ha
  by_cases h : a.tmod b = 0
  · rw [if_neg (not_not_intro h), if_neg (by rw [h]; exact lt_irrefl 0)]
  · have hpos : 0 < a.tmod b := lt_of_le_of_ne hr0 (Ne.symm h)
    rw [if_pos hpos, if_pos h]

/-- The pattern equals the rational ceiling, for nonnegative dividend
and positive divisor. -/
theorem cppCeil_eq_ceil (a b : Int) (ha : 0 ≤ a) (hb : 0 < b) :
    a.tdiv b + (if a.tmod b ≠ 0 then 1 else 0) = ⌈(a : ℚ) / (b : ℚ)⌉ := by
  have hqr := Int.tdiv_add_tmod a b
  have hr0 := Int.tmod_nonneg b ha
  have hrb := Int.tmod_lt_of_pos a hb
  have hbQ : (0 : ℚ) < (b : ℚ) := Int.cast_pos.mpr hb
  rw [eq_comm, Int.ceil_eq_iff]
  constructor
  · rw [lt_div_iff₀ hbQ]
    have hInt : (a.tdiv b + (if a.tmod b ≠ 0 then 1 else 0) - 1) * b < a := by
      by_cases h : a.tmod b = 0
      · rw [if_neg (not_not_intro h), add_zero]
        rw [h, add_zero] at hqr
        have h2 : (a.tdiv b - 1) * b = b * a.tdiv b - b := by
          rw [sub_mul, one_mul, mul_comm]
        rw [h2, hqr]
        exact sub_lt_self a hb
      · rw [if_pos h, add_sub_cancel_right, mul_comm]
        have hrpos : 0 < a.tmod b := lt_of_le_of_ne hr0 (Ne.symm h)
        calc b * a.tdiv b < b * a.tdiv b + a.tmod b := lt_add_of_pos_right _ hrpos
          _ = a := hqr
    have hQ : (((a.tdiv b + (if a.tmod b ≠ 0 then 1 else 0) - 1) * b : Int) : ℚ) <
        ((a : Int) : ℚ) := Int.cast_lt.mpr hInt
    rw [Int.cast_mul, Int.cast_sub, Int.cast_one] at hQ
    exact hQ
  · rw [div_le_iff₀ hbQ]
    have hInt : a ≤ (a.tdiv b + (if a.tmod b ≠ 0 then 1 else 0)) * b := by
      by_cases h : a.tmod b = 0
      · rw [if_neg (not_not_intro h), add_zero, mul_comm]
        rw [h, add_zero] at hqr
        exact le_of_eq hqr.symm
      · rw [if_pos h]
        have h2 : (a.tdiv b + 1) * b = b * a.tdiv b + b := by
          rw [add_mul, one_mul, mul_comm]
        rw [h2]
        have h1 : b * a.tdiv b + a.tmod b < b * a.tdiv b + b :=
          add_lt_add_left hrb (b * a.tdiv b)
        rw [hqr] at h1
        exact h1.le
    have hQ : ((a : Int) : ℚ) ≤
        (((a.tdiv b + (if a.tmod b ≠ 0 then 1 else 0)) * b : Int) : ℚ) :=
      Int.cast_le.mpr hInt
    rw [Int.cast_mul] at hQ
    exact hQ

/-- The pattern equals the rational ceiling whenever dividend and
divisor have matching signs (the validated case). -/
theorem cppCeil_eq_ceil_of_sign (a b : Int) (hb : b ≠ 0) (hab : 0 ≤ a * b) :
    a.tdiv b + (if a.tmod b ≠ 0 then 1 else 0) = ⌈(a : ℚ) / (b : ℚ)⌉ := by
  rcases hb.lt_or_lt with hneg | hpos
  · have ha : a ≤ 0 := by
      by_contra hlt
      exact absurd hab (not_le.mpr (mul_neg_of_pos_of_neg (not_le.mp hlt) hneg))
    have e1 : a.tdiv b = (-a).tdiv (-b) := by
      rw [Int.neg_tdiv, Int.tdiv_neg, neg_neg]
    have e2 : (-a).tmod (-b) = -(a.tmod b) := by
      rw [Int.tmod_neg, Int.tmod_def, Int.tmod_def, Int.neg_tdiv, mul_neg,
        sub_neg_eq_add, neg_sub, add_comm, ← sub_eq_add_neg]
    have e3 : (a : ℚ) / (b : ℚ) = ((-a : Int) : ℚ) / ((-b : Int) : ℚ) := by
      rw [Int.cast_neg, Int.cast_neg, neg_div_neg_eq]
    have e4 : (if a.tmod b ≠ 0 then (1 : Int) else 0) =
        (if (-a).tmod (-b) ≠ 0 then 1 else 0) := by
      simp only [e2, neg_ne_zero]
    rw [e1, e3, e4]
    exact cppCeil_eq_ceil (-a) (-b) (neg_nonneg.mpr ha) (neg_pos.mpr hneg)
  · have ha : 0 ≤ a := by
      by_contra hlt
      exact absurd hab (not_le.mpr (mul_neg_of_neg_of_pos (not_le.mp hlt) hpos))
    exact cppCeil_eq_ceil a b ha hpos

end muda

namespace muda

/-! ## Per-thread trace lemmas -/

end muda

namespace muda

/-! ## Kernel-launch trace lemmas -/

end muda

namespace muda

/-! ## Claim theorems: the launch scheduler -/

end muda

namespace muda

/-! ## Claim theorems: validation and the descriptor builder -/

/-- C3: `apply` and `asNodeParms` fail, before producing any launch or
descriptor, exactly when `step == 0` (step-zero error) or
`step * (end - begin) < 0` (direction error); an empty domain with any
nonzero step passes validation. -/
theorem checkInput_gates (pf : parallel_for) (begin_ end_ step : Int) :
    ((pf.apply begin_ end_ step).isOk = false ↔
      (step = 0 ∨ step * (end_ - begin_) < 0)) ∧
    ((pf.asNodeParms begin_ end_ step).isOk = false ↔
      (step = 0 ∨ step * (end_ - begin_) < 0)) ∧
    (step = 0 → pf.apply begin_ end_ step = .error .stepZero ∧
      pf.asNodeParms begin_ end_ step = .error .stepZero) ∧
    (step ≠ 0 → step * (end_ - begin_) < 0 →
      pf.apply begin_ end_ step = .error .stepDirection ∧
      pf.asNodeParms begin_ end_ step = .error .stepDirection) ∧
    (begin_ = end_ → step ≠ 0 →
      (pf.apply begin_ end_ step).isOk = true ∧
      (pf.asNodeParms begin_ end_ step).isOk = true) := by
  by_cases h0 : step = 0
  · have hchk : checkInput begin_ end_ step = some .stepZero := by
      unfold checkInput
      rw [if_pos h0]
    have ha : pf.apply begin_ end_ step = .error .stepZero := by
      unfold parallel_for.apply
      rw [hchk]
    have hb : pf.asNodeParms begin_ end_ step = .error .stepZero := by
      unfold parallel_for.asNodeParms
      rw [hchk]
    exact ⟨by rw [ha]; simp [Except.isOk, Except.toBool, h0],
      by rw [hb]; simp [Except.isOk, Except.toBool, h0],
      fun _ => ⟨ha, hb⟩,
      fun hne => absurd h0 hne,
      fun _ hne => absurd h0 hne⟩
  · by_cases h1 : step * (end_ - begin_) < 0
    · have hchk : checkInput begin_ end_ step = some .stepDirection := by
        unfold checkInput
        rw [if_neg h0, if_pos h1]
      have ha : pf.apply begin_ end_ step = .error .stepDirection := by
        unfold parallel_for.apply
        rw [hchk]
      have hb : pf.asNodeParms begin_ end_ step = .error .stepDirection := by
        unfold parallel_for.asNodeParms
        rw [hchk]
      refine ⟨by rw [ha]; simp [Except.isOk, Except.toBool, h1],
        by rw [hb]; simp [Except.isOk, Except.toBool, h1],
        fun hcontra => absurd hcontra h0,
        fun _ _ => ⟨ha, hb⟩, ?_⟩
      intro hbe _
      rw [hbe] at h1
      simp at h1
    · have hchk : checkInput begin_ end_ step = none := by
        unfold checkInput
        rw [if_neg h0, if_neg h1]
      have ha : (pf.apply begin_ end_ step).isOk = true := by
        unfold parallel_for.apply
        rw [hchk]
        split_ifs <;> rfl
      have hb : (pf.asNodeParms begin_ end_ step).isOk = true := by
        unfold parallel_for.asNodeParms
        rw [hchk]
        rfl
      exact ⟨by rw [ha]; simp [h0, h1],
        by rw [hb]; simp [h0, h1],
        fun hcontra => absurd hcontra h0,
        fun _ hcontra => absurd hcontra h1,
        fun _ _ => ⟨ha, hb⟩⟩

/-- C3 witness: the empty domain `[2, 2)` with step 1 raises no error
from either entry point. -/
theorem checkInput_gates_witness :
    (parallel_for.apply ⟨0, 1, 0⟩ 2 2 1).isOk = true ∧
    (parallel_for.asNodeParms ⟨0, 1, 0⟩ 2 2 1).isOk = true :=
  (checkInput_gates ⟨0, 1, 0⟩ 2 2 1).2.2.2.2 rfl (by decide)

/-- C5: for every validated domain and positive block dimension, the
bounded strategy computes
`gridDim = ceil(nMinThreads / blockDim)` with
`nMinThreads = ceil((end - begin) / step)` (rational ceilings), and in
particular `begin = 0, end = 10, step = 1, blockDim = 4` yields 3. -/
theorem calculateGridDim_is_ceil :
    (∀ (pf : parallel_for) (begin_ end_ step : Int),
      step ≠ 0 → 0 ≤ step * (end_ - begin_) → 0 < pf.blockDim →
      pf.calculateGridDim begin_ end_ step =
        ⌈((⌈((end_ - begin_ : Int) : ℚ) / ((step : Int) : ℚ)⌉ : Int) : ℚ) /
          ((pf.blockDim : Int) : ℚ)⌉) ∧
    parallel_for.calculateGridDim ⟨0, 4, 0⟩ 0 10 1 = 3 := by
  constructor
  · intro pf begin_ end_ step hs hv hbd
    simp only [parallel_for.calculateGridDim]
    have hinner : (end_ - begin_).tdiv step +
        (if (end_ - begin_).tmod step ≠ 0 then 1 else 0) =
        ⌈((end_ - begin_ : Int) : ℚ) / ((step : Int) : ℚ)⌉ :=
      cppCeil_eq_ceil_of_sign (end_ - begin_) step hs (by rw [mul_comm]; exact hv)
    set q1 := (end_ - begin_).tdiv step +
      (if (end_ - begin_).tmod step ≠ 0 then 1 else 0) with hq1
    have hfrac : 0 ≤ ((end_ - begin_ : Int) : ℚ) / ((step : Int) : ℚ) := by
      rcases lt_or_gt_of_ne hs with hneg | hpos
      · rw [show ((end_ - begin_ : Int) : ℚ) / ((step : Int) : ℚ) =
            ((-(end_ - begin_) : Int) : ℚ) / ((-step : Int) : ℚ) by
          rw [Int.cast_neg, Int.cast_neg, neg_div_neg_eq]]
        apply div_nonneg
        · have hle : end_ - begin_ ≤ 0 := by
            by_contra hgt
            exact absurd hv
              (not_le.mpr (mul_neg_of_neg_of_pos hneg (not_le.mp hgt)))
          exact Int.cast_nonneg.mpr (neg_nonneg.mpr hle)
        · exact Int.cast_nonneg.mpr (neg_nonneg.mpr hneg.le)
      · apply div_nonneg
        · have hle : 0 ≤ end_ - begin_ := by
            by_contra hgt
            exact absurd hv
              (not_le.mpr (mul_neg_of_pos_of_neg hpos (not_le.mp hgt)))
          exact Int.cast_nonneg.mpr hle
        · exact Int.cast_nonneg.mpr hpos.le
    have hq1nn : 0 ≤ q1 := by
      rw [hinner]
      exact Int.ceil_nonneg hfrac
    rw [cppCeil_gt_indicator q1 pf.blockDim hq1nn,
      cppCeil_eq_ceil q1 pf.blockDim hq1nn hbd, hinner]
  · decide

/-- C5 witness: the concrete shape computation of the spec. -/
theorem calculateGridDim_is_ceil_witness :
    parallel_for.calculateGridDim ⟨0, 4, 0⟩ 0 10 1 = 3 :=
  (calculateGridDim_is_ceil.1 ⟨0, 4, 0⟩ 0 10 1 (by decide) (by decide) (by decide)).trans
    (by
      norm_num
      rw [Int.ceil_eq_iff]
      norm_num)

/-- C6: every descriptor built by `asNodeParms` carries exactly the
four argument pointers, addressing the payload's `callable`, `begin`,
`end`, `step` fields in that order. -/
theorem asNodeParms_argPtrs_layout (pf : parallel_for) (begin_ end_ step : Int)
    (parms : kernelNodeParms) (h : pf.asNodeParms begin_ end_ step = .ok parms) :
    parms.argPtrs = [.callableAddr, .beginAddr, .endAddr, .stepAddr] ∧
    parms.argPtrs.length = 4 := by
  unfold parallel_for.asNodeParms at h
  cases hchk : checkInput begin_ end_ step with
  | some err =>
    rw [hchk] at h
    simp at h
  | none =>
    rw [hchk] at h
    simp only [Except.ok.injEq] at h
    rw [← h]
    exact ⟨rfl, rfl⟩

/-- C6 witness: the descriptor built for `[0, 1)` by 1. -/
theorem asNodeParms_argPtrs_layout_witness :
    kernelNodeParms.argPtrs
        ⟨.parallelForKernel, 1, 1, 0, 0, 1, 1,
          [.callableAddr, .beginAddr, .endAddr, .stepAddr]⟩ =
      [PayloadField.callableAddr, .beginAddr, .endAddr, .stepAddr] ∧
    (kernelNodeParms.argPtrs
        ⟨.parallelForKernel, 1, 1, 0, 0, 1, 1,
          [.callableAddr, .beginAddr, .endAddr, .stepAddr]⟩).length = 4 :=
  asNodeParms_argPtrs_layout ⟨0, 1, 0⟩ 0 1 1
    ⟨.parallelForKernel, 1, 1, 0, 0, 1, 1,
      [.callableAddr, .beginAddr, .endAddr, .stepAddr]⟩ rfl

/-- C7: `asNodeParms` validates exactly as `apply` does, and on success
records the very dispatch shape `apply` would use: the bounded entry
point with the computed grid dimension when `gridDim <= 0`, the
grid-stride entry point with the configured grid dimension otherwise,
with `blockDim` and `sharedMemBytes` recorded unchanged, matching every
launch `apply` issues. -/
theorem asNodeParms_matches_apply (pf : parallel_for) (begin_ end_ step : Int) :
    (∀ err, pf.asNodeParms begin_ end_ step = .error err ↔
      pf.apply begin_ end_ step = .error err) ∧
    (∀ parms, pf.asNodeParms begin_ end_ step = .ok parms →
      parms.blockDim = pf.blockDim ∧ parms.sharedMemBytes = pf.sharedMemSize ∧
      (pf.gridDim ≤ 0 → parms.func = .parallelForKernel ∧
        parms.gridDim = pf.calculateGridDim begin_ end_ step) ∧
      (0 < pf.gridDim → parms.func = .gridStrideLoopKernel ∧
        parms.gridDim = pf.gridDim) ∧
      (∀ Ls, pf.apply begin_ end_ step = .ok Ls → ∀ L ∈ Ls,
        L.func = parms.func ∧ L.gridDim = parms.gridDim ∧
        L.blockDim = parms.blockDim ∧ L.sharedMemSize = parms.sharedMemBytes)) := by
  cases hchk : checkInput begin_ end_ step with
  | some err0 =>
    have ha : pf.apply begin_ end_ step = .error err0 := by
      unfold parallel_for.apply
      rw [hchk]
    have hb : pf.asNodeParms begin_ end_ step = .error err0 := by
      unfold parallel_for.asNodeParms
      rw [hchk]
    refine ⟨fun err => ?_, fun parms hok => ?_⟩
    · constructor
      · intro h
        rw [hb] at h
        obtain rfl := Except.error.inj h
        exact ha
      · intro h
        rw [ha] at h
        obtain rfl := Except.error.inj h
        exact hb
    rw [hb] at hok
    simp at hok
  | none =>
    by_cases hg : pf.gridDim ≤ 0
    · have hb : pf.asNodeParms begin_ end_ step = .ok
          ⟨.parallelForKernel, pf.calculateGridDim begin_ end_ step, pf.blockDim,
            pf.sharedMemSize, begin_, step, end_,
            [.callableAddr, .beginAddr, .endAddr, .stepAddr]⟩ := by
        unfold parallel_for.asNodeParms
        rw [hchk]
        simp [hg]
      refine ⟨fun err => ?_, fun parms hok => ?_⟩
      · rw [hb]
        constructor
        · intro hcontra
          simp at hcontra
        · intro hcontra
          unfold parallel_for.apply at hcontra
          rw [hchk] at hcontra
          split_ifs at hcontra
      · rw [hb] at hok
        simp only [Except.ok.injEq] at hok
        subst hok
        refine ⟨rfl, rfl, fun _ => ⟨rfl, rfl⟩,
          fun hgpos => absurd hg (not_le.mpr hgpos), ?_⟩
        intro Ls hLs L hL
        unfold parallel_for.apply at hLs
        rw [hchk, if_pos hg] at hLs
        by_cases hbe : begin_ ≠ end_
        · rw [if_pos hbe] at hLs
          simp only [Except.ok.injEq] at hLs
          subst hLs
          rw [List.mem_singleton] at hL
          subst hL
          exact ⟨rfl, rfl, rfl, rfl⟩
        · rw [if_neg hbe] at hLs
          simp only [Except.ok.injEq] at hLs
          subst hLs
          simp at hL
    · have hgpos : 0 < pf.gridDim := not_le.mp hg
      have hb : pf.asNodeParms begin_ end_ step = .ok
          ⟨.gridStrideLoopKernel, pf.gridDim, pf.blockDim, pf.sharedMemSize,
            begin_, step, end_,
            [.callableAddr, .beginAddr, .endAddr, .stepAddr]⟩ := by
        unfold parallel_for.asNodeParms
        rw [hchk]
        simp [hg]
      refine ⟨fun err => ?_, fun parms hok => ?_⟩
      · rw [hb]
        constructor
        · intro hcontra
          simp at hcontra
        · intro hcontra
          unfold parallel_for.apply at hcontra
          rw [hchk] at hcontra
          split_ifs at hcontra
      · rw [hb] at hok
        simp only [Except.ok.injEq] at hok
        subst hok
        refine ⟨rfl, rfl, fun hcontra => absurd hcontra hg,
          fun _ => ⟨rfl, rfl⟩, ?_⟩
        intro Ls hLs L hL
        unfold parallel_for.apply at hLs
        rw [hchk, if_neg hg] at hLs
        simp only [Except.ok.injEq] at hLs
        subst hLs
        rw [List.mem_singleton] at hL
        subst hL
        exact ⟨rfl, rfl, rfl, rfl⟩

/-- C7 witness: for the bounded configuration on `[0, 1)` by 1, the
descriptor records the block dimension unchanged. -/
theorem asNodeParms_matches_apply_witness :
    kernelNodeParms.blockDim
        ⟨.parallelForKernel, 1, 1, 0, 0, 1, 1,
          [.callableAddr, .beginAddr, .endAddr, .stepAddr]⟩ = 1 :=
  ((asNodeParms_matches_apply ⟨0, 1, 0⟩ 0 1 1).2
    ⟨.parallelForKernel, 1, 1, 0, 0, 1, 1,
      [.callableAddr, .beginAddr, .endAddr, .stepAddr]⟩ rfl).1

end muda

namespace muda

/-! ## Claim theorems: device scalar, view, and graph trampoline -/

/-- C8: a device scalar round-trips values — constructing from `v` and
converting back yields exactly `v`, and after assigning `w` to an
existing scalar the conversion yields `w`, not any previous content. -/
theorem deviceVar_roundtrip (T : Type) (h : buffer.Heap T) (v w : T)
    (d : buffer.DeviceVar T) :
    (buffer.DeviceVar.mkFromValue v h).1.toValue (buffer.DeviceVar.mkFromValue v h).2 =
      some v ∧
    (d.assignValue w h).1.toValue (d.assignValue w h).2 = some w := by
  constructor
  · simp [buffer.DeviceVar.mkFromValue, buffer.DeviceVar.toValue, buffer.DeviceVar.view,
      buffer.VarView.copy_from_host, buffer.VarView.copy_to_host, buffer.Heap.alloc,
      buffer.Heap.write, buffer.Heap.read]
  · simp [buffer.DeviceVar.assignValue, buffer.DeviceVar.toValue, buffer.DeviceVar.view,
      buffer.VarView.copy_from_host, buffer.VarView.copy_to_host,
      buffer.Heap.write, buffer.Heap.read]

/-- C9: a device-side nested-graph launch signals the fatal
launch-context error exactly when the stream is neither the tail-launch
nor the fire-and-forget context; both convenience entry points pass the
context check and, when the launch primitive succeeds, signal nothing. -/
theorem graphViewer_launch_context (g : graph.GraphViewer) (stream : graph.GraphStream)
    (cudaGraphLaunch : Nat → graph.GraphStream → Option Nat) :
    ((∃ gr, g.launchDevice stream cudaGraphLaunch =
        .error (.invalidLaunchStream gr)) ↔
      (stream ≠ .graphTailLaunch ∧ stream ≠ .graphFireAndForget)) ∧
    (stream ≠ .graphTailLaunch → stream ≠ .graphFireAndForget →
      g.launchDevice stream cudaGraphLaunch = .error (.invalidLaunchStream g.m_graph)) ∧
    (cudaGraphLaunch g.m_graph .graphTailLaunch = none →
      g.tail_launch cudaGraphLaunch = .ok ()) ∧
    (cudaGraphLaunch g.m_graph .graphFireAndForget = none →
      g.fire_and_forget cudaGraphLaunch = .ok ()) := by
  refine ⟨?_, ?_, ?_, ?_⟩
  · unfold graph.GraphViewer.launchDevice
    by_cases hlegal : stream = .graphTailLaunch ∨ stream = .graphFireAndForget
    · rw [if_neg (not_not_intro hlegal)]
      constructor
      · rintro ⟨gr, hgr⟩
        exfalso
        cases hp : cudaGraphLaunch g.m_graph stream with
        | none => rw [hp] at hgr; simp at hgr
        | some code => rw [hp] at hgr; simp at hgr
      · rintro ⟨h1, h2⟩
        rcases hlegal with rfl | rfl
        · exact absurd rfl h1
        · exact absurd rfl h2
    · push_neg at hlegal
      rw [if_pos (by tauto)]
      constructor
      · intro _
        exact hlegal
      · intro _
        exact ⟨g.m_graph, rfl⟩
  · intro h1 h2
    unfold graph.GraphViewer.launchDevice
    rw [if_pos (by tauto)]
  · intro hp
    unfold graph.GraphViewer.tail_launch graph.GraphViewer.launchDevice
    rw [if_neg (not_not_intro (Or.inl rfl)), hp]
  · intro hp
    unfold graph.GraphViewer.fire_and_forget graph.GraphViewer.launchDevice
    rw [if_neg (not_not_intro (Or.inr rfl)), hp]

/-- C9 witness: an ordinary stream signals the context error; a
tail launch with a succeeding primitive signals nothing. -/
theorem graphViewer_launch_context_witness :
    graph.GraphViewer.launchDevice ⟨0⟩ (.ordinary 0) (fun _ _ => none) =
      .error (.invalidLaunchStream 0) ∧
    graph.GraphViewer.tail_launch ⟨0⟩ (fun _ _ => none) = .ok () :=
  ⟨(graphViewer_launch_context ⟨0⟩ (.ordinary 0) (fun _ _ => none)).2.1
      (fun h => nomatch h) (fun h => nomatch h),
    (graphViewer_launch_context ⟨0⟩ .graphTailLaunch (fun _ _ => none)).2.2.1 rfl⟩

/-- C10: every assignment into an existing device scalar keeps the
destination object and its allocation count unchanged (contents are
transferred into the already-owned storage, no reallocation), the
transfer touches only the destination cell, and self-assignment is a
complete no-op. -/
theorem deviceVar_assign_frame (T : Type) (h : buffer.Heap T)
    (d other : buffer.DeviceVar T) (vw : buffer.VarView T) (w : T) :
    ((d.assign other h).1 = d ∧ ((d.assign other h).2).next = h.next) ∧
    ((d.assignView vw h).1 = d ∧ ((d.assignView vw h).2).next = h.next) ∧
    ((d.assignValue w h).1 = d ∧ ((d.assignValue w h).2).next = h.next) ∧
    (d.m_data ≠ other.m_data →
      ((d.assign other h).2).read d.m_data = h.read other.m_data ∧
      (∀ q, q ≠ d.m_data → ((d.assign other h).2).read q = h.read q)) ∧
    d.assign d h = (d, h) := by
  refine ⟨⟨?_, ?_⟩, ⟨rfl, rfl⟩, ⟨rfl, rfl⟩, ?_, ?_⟩
  · unfold buffer.DeviceVar.assign
    split_ifs <;> rfl
  · unfold buffer.DeviceVar.assign
    split_ifs <;> rfl
  · intro hne
    unfold buffer.DeviceVar.assign
    rw [if_neg hne]
    constructor
    · simp [buffer.VarView.copy_from_view, buffer.Heap.write, buffer.Heap.read,
        buffer.DeviceVar.view]
    · intro q hq
      simp [buffer.VarView.copy_from_view, buffer.Heap.write, buffer.Heap.read,
        buffer.DeviceVar.view, hq]
  · unfold buffer.DeviceVar.assign
    rw [if_pos rfl]

/-- C10 witness: assigning between two distinct scalars transfers the
source cell into the destination cell. -/
theorem deviceVar_assign_frame_witness :
    (buffer.DeviceVar.assign (⟨0⟩ : buffer.DeviceVar Nat) ⟨1⟩ ⟨fun _ => none, 2⟩).2.read 0 =
      buffer.Heap.read ⟨fun _ => none, 2⟩ 1 :=
  ((deviceVar_assign_frame Nat ⟨fun _ => none, 2⟩ ⟨0⟩ ⟨1⟩ ⟨0⟩ 0).2.2.2.1 (by decide)).1

end muda
